import Mathlib

/-!
Shallow embedding of the bidglass bid adapter
(`src/modules/bidglassBidAdapter.js`): request building (size
normalization, consent aggregation, targeting override, referer
selection) and response interpretation (field coercion/defaulting and
the `&replaceme` placeholder substitution), together with theorems
checking the specification's claims against these definitions.
-/

/-- JavaScript-like values, covering the shapes the adapter manipulates:
numbers, strings, arrays and plain objects (modelled as association
lists). -/
inductive JVal where
  | num : Int → JVal
  | str : String → JVal
  | arr : List JVal → JVal
  | obj : List (String × JVal) → JVal
deriving Repr

/-- `isArray(v)` from the utils import: true exactly on arrays. -/
def JVal.isArr : JVal → Bool
  | .arr _ => true
  | _ => false

/-- `isArray(v) && isArray(v[0])` evaluated on `v` already known to the
caller: true when `v` is an array whose first element exists and is an
array (indexing an empty array yields `undefined`, which is not an
array). -/
def firstIsArr : JVal → Bool
  | .arr (x :: _) => x.isArr
  | _ => false

/-- Lines 81-82: `bid.sizes = ((isArray(bid.sizes) && isArray(bid.sizes[0])) ? bid.sizes : [bid.sizes]);
bid.sizes = bid.sizes.filter(size => isArray(size));` -/
def normalizeSizes (v : JVal) : JVal :=
  let wrapped := if v.isArr && firstIsArr v then v else JVal.arr [v]
  match wrapped with
  | .arr l => JVal.arr (l.filter JVal.isArr)
  | w => w

/-- The auction-level `gdprConsent` object (regional-privacy signal):
`gdprApplies` truthiness and the optional consent string. -/
structure GdprConsent where
  gdprApplies : Bool
  consentString : Option String
deriving Repr

/-- The auction-level `gppConsent` object (cross-context consent signal). -/
structure GppConsent where
  gppString : Option String
  applicableSections : Option (List Int)
deriving Repr

/-- The regulatory-extension object `bidderRequest.ortb2.regs`,
restricted to the two fields the adapter reads. -/
structure Ortb2Regs where
  gpp : Option String
  gpp_sid : Option String
deriving Repr

/-- JavaScript string truthiness for a possibly-absent string: truthy
iff present and non-empty. -/
def truthyStr : Option String → Bool
  | some s => s != ""
  | none => false

/-- `.join(',')` on an array of section-id numbers. -/
def joinComma (l : List Int) : String :=
  String.intercalate "," (l.map toString)

/-- Line 120: `gdprApplies: (gdprConsentObj && gdprConsentObj.gdprApplies) ? 1 : ''`,
rendered as the string form taken by the wire value (`1` encodes as "1"). -/
def gdprAppliesField (gdprConsentObj : Option GdprConsent) : String :=
  match gdprConsentObj with
  | some o => if o.gdprApplies then "1" else ""
  | none => ""

/-- Line 122: `gdprConsent: (gdprConsentObj && gdprConsentObj.consentString) || ''`. -/
def gdprConsentField (gdprConsentObj : Option GdprConsent) : String :=
  match gdprConsentObj.bind GdprConsent.consentString with
  | some s => if s == "" then "" else s
  | none => ""

/-- Line 125: `gppString: (gppConsentObj && gppConsentObj.gppString) || ortb2Gpp || ''`
where `ortb2Gpp = ortb2Regs && ortb2Regs.gpp`. -/
def gppStringField (gppConsentObj : Option GppConsent) (ortb2Regs : Option Ortb2Regs) : String :=
  let primary := gppConsentObj.bind GppConsent.gppString
  let ortb2Gpp := ortb2Regs.bind Ortb2Regs.gpp
  if truthyStr primary then primary.getD ""
  else if truthyStr ortb2Gpp then ortb2Gpp.getD ""
  else ""

/-- The else-branch of lines 127-129: `(ortb2Gpp && ortb2Regs.gpp_sid) || ''`. -/
def gppSidFallback (ortb2Regs : Option Ortb2Regs) : String :=
  let ortb2Gpp := ortb2Regs.bind Ortb2Regs.gpp
  let sid := ortb2Regs.bind Ortb2Regs.gpp_sid
  if truthyStr ortb2Gpp then (if truthyStr sid then sid.getD "" else "") else ""

/-- Lines 127-129: `gppSid: (isArray(gppApplicableSections) && gppApplicableSections.length)
? gppApplicableSections.join(',') : ((ortb2Gpp && ortb2Regs.gpp_sid) || '')`. -/
def gppSidField (gppConsentObj : Option GppConsent) (ortb2Regs : Option Ortb2Regs) : String :=
  match gppConsentObj.bind GppConsent.applicableSections with
  | some l => if l.isEmpty then gppSidFallback ortb2Regs else joinComma l
  | none => gppSidFallback ortb2Regs

/-- The ambient frame context read by `getReferer`: whether the current
window is the top frame, whether its parent is the top frame, the top
frame URL and the document referrer. -/
structure FrameCtx where
  isTop : Bool
  parentIsTop : Bool
  href : String
  referrer : String
deriving Repr

/-- Lines 53-55: `window === window.top ? window.location.href :
window.parent === window.top ? document.referrer : null`. -/
def getReferer (w : FrameCtx) : Option String :=
  if w.isTop then some w.href
  else if w.parentIsTop then some w.referrer
  else none

/-- One host-supplied bid request, restricted to the fields the adapter
reads or writes (`bidId`, `sizes`, `params`). -/
structure BidRequest where
  bidId : String
  sizes : JVal
  params : List (String × JVal)
deriving Repr

/-- One normalized impression pushed into the outbound payload
(lines 97-102). -/
structure Imp where
  bidId : String
  sizes : JVal
  adUnitId : JVal
  options : List (String × JVal)
deriving Repr

/-- Property lookup on an object modelled as an association list
(first binding wins, as JS objects have unique keys). -/
def lookupKey (k : String) (l : List (String × JVal)) : Option JVal :=
  (l.find? (fun p => p.1 == k)).map Prod.snd

/-- `delete obj[k]` on the association-list object model. -/
def eraseKey (k : String) (l : List (String × JVal)) : List (String × JVal) :=
  l.filter (fun p => p.1 != k)

/-- `obj[k] = v` on the association-list object model: replace the
binding in place when the key exists, append otherwise. -/
def setKey (k : String) (v : JVal) (l : List (String × JVal)) : List (String × JVal) :=
  if (l.find? (fun p => p.1 == k)).isSome then
    l.map (fun p => if p.1 == k then (k, v) else p)
  else l ++ [(k, v)]

/-- Modelled from the spec: the utils helper `getBidIdParameter(key, params)`
("extract the required slot-identifier parameter") returns the parameter
value when present and truthy, and the empty string otherwise; its source
lives outside `src/`. Truthiness beyond presence is irrelevant to the
claims, so presence stands in for it. -/
def getBidIdParameter (k : String) (params : List (String × JVal)) : JVal :=
  match lookupKey k params with
  | some v => v
  | none => JVal.str ""

/-- The external targeting provider `window['bidglass'].getTargeting`,
called with `(adUnitId, options.targeting)`; `none` as a result models a
falsy return (`null`/`undefined`), `some m` a returned object with
bindings `m` (`some []` is the empty object). -/
abbrev GetTargetingFn := JVal → Option JVal → Option (List (String × JVal))

/-- Lines 81-102, the body of the `_each` loop over `validBidRequests`:
normalize `bid.sizes` and write the result back into the bid, extract
`adUnitId`, deep-clone the params minus `adUnitId` into `options`,
optionally let a registered targeting provider override
`options.targeting` (only when it returns a non-empty mapping), and
build the impression. Returns the post-loop state of the bid (its
`sizes` property is reassigned) together with the pushed impression.
`deepClone` (a utils helper outside `src/`, described by the spec as
"deep-copy remaining parameters into options") is the identity on these
immutable values: the clone is what makes later writes invisible on
`bid.params`. -/
def processBid (bidglass : Option GetTargetingFn) (bid : BidRequest) : BidRequest × Imp :=
  let sizes1 := normalizeSizes bid.sizes
  let adUnitId := getBidIdParameter "adUnitId" bid.params
  let options0 := eraseKey "adUnitId" bid.params
  let options :=
    match bidglass with
    | some getTargeting =>
      match getTargeting adUnitId (lookupKey "targeting" options0) with
      | some targeting =>
        if targeting.length > 0 then setKey "targeting" (JVal.obj targeting) options0
        else options0
      | none => options0
    | none => options0
  ({ bid with sizes := sizes1 },
   { bidId := bid.bidId, sizes := sizes1, adUnitId := adUnitId, options := options })

/-- The state of the host-supplied `validBidRequests` array elements
after `buildRequests` returns: the loop at lines 80-103 reassigns
`bid.sizes` on each element. -/
def buildRequestsBidsAfter (bidglass : Option GetTargetingFn) (validBidRequests : List BidRequest) : List BidRequest :=
  validBidRequests.map (fun bid => (processBid bidglass bid).1)

/-- The `imps` list accumulated by the loop at lines 80-103, in input
order. -/
def buildRequestsImps (bidglass : Option GetTargetingFn) (validBidRequests : List BidRequest) : List Imp :=
  validBidRequests.map (fun bid => (processBid bidglass bid).2)

/-- One hexadecimal digit (uppercase, as `encodeURIComponent` emits). -/
def hexDigit (n : Nat) : Char :=
  if n < 10 then Char.ofNat (48 + n) else Char.ofNat (55 + n)

/-- UTF-8 bytes of a scalar value, used by `encodeURIComponent` for
characters outside its unreserved set. -/
def utf8Bytes (c : Char) : List Nat :=
  let n := c.toNat
  if n < 128 then [n]
  else if n < 2048 then [192 + n / 64, 128 + n % 64]
  else if n < 65536 then [224 + n / 4096, 128 + (n / 64) % 64, 128 + n % 64]
  else [240 + n / 262144, 128 + (n / 4096) % 64, 128 + (n / 64) % 64, 128 + n % 64]

/-- The characters `encodeURIComponent` leaves unescaped:
ASCII letters, digits, and `- _ . ! ~ * ' ( )`. -/
def isUriUnreserved (c : Char) : Bool :=
  c.isAlpha || c.isDigit || c == '-' || c == '_' || c == '.' || c == '!' ||
    c == '~' || c == '*' || c == Char.ofNat 39 || c == '(' || c == ')'

/-- Percent-encoding of one escaped character. -/
def percentEncode (c : Char) : List Char :=
  (utf8Bytes c).flatMap (fun b => ['%', hexDigit (b / 16), hexDigit (b % 16)])

/-- JavaScript `encodeURIComponent` on non-surrogate text. -/
def encodeURIComponent (s : String) : String :=
  String.mk (s.data.flatMap (fun c => if isUriUnreserved c then [c] else percentEncode c))

/-- The bid-request payload recovered at line 155 by
`JSON.parse(serverRequest.data)`, restricted to the four consent keys the
placeholder substitution reads. Each field is the string rendering of
`bidReq[key]` (`encodeURIComponent` coerces the numeric `gdprApplies`
value `1` to "1"); `none` models an absent key (`undefined`), which is
the only case `bidReq[key] != null` filters out. -/
structure ParsedBidReq where
  gdprApplies : Option String
  gdprConsent : Option String
  gppString : Option String
  gppSid : Option String
deriving Repr

/-- The four consent keys of lines 175-178 paired with their payload
values, in the fixed source order. -/
def consentKeyVals (bidReq : ParsedBidReq) : List (String × Option String) :=
  [("gdprApplies", bidReq.gdprApplies), ("gdprConsent", bidReq.gdprConsent),
   ("gppString", bidReq.gppString), ("gppSid", bidReq.gppSid)]

/-- Lines 175-178: `['gdprApplies','gdprConsent','gppString','gppSid']
.filter(key => bidReq[key] != null).map(key => key + '=' + encodeURIComponent(bidReq[key])).join('&')`. -/
def urlEncodedExtras (bidReq : ParsedBidReq) : String :=
  String.intercalate "&"
    ((consentKeyVals bidReq).filterMap
      (fun kv => kv.2.map (fun v => kv.1 ++ "=" ++ encodeURIComponent v)))

/-- Line 179: `urlEncodedExtras ? ('&' + urlEncodedExtras) : ''`. -/
def replacemeExpansion (bidReq : ParsedBidReq) : String :=
  let extras := urlEncodedExtras bidReq
  if extras == "" then "" else "&" ++ extras

/-- Scan for the leftmost occurrence of the (non-empty) pattern and
splice the replacement in; the remainder of the string, later
occurrences included, is kept verbatim. -/
def replaceFirstAux (pat rep : List Char) : List Char → List Char
  | [] => []
  | c :: rest =>
    if List.isPrefixOf pat (c :: rest) then rep ++ List.drop pat.length (c :: rest)
    else c :: replaceFirstAux pat rep rest

/-- JavaScript `s.replace(pat, fn)` with a string pattern: only the first
occurrence is replaced, and the replacement (a function result here, so
no `$`-pattern expansion) is inserted literally; an empty pattern
matches at the start. -/
def replaceFirst (s pat rep : List Char) : List Char :=
  match pat with
  | [] => rep ++ s
  | _ :: _ => replaceFirstAux pat rep s

/-- String wrapper for `replaceFirst`. -/
def replaceFirstStr (s pat rep : String) : String :=
  String.mk (replaceFirst s.data pat.data rep.data)

/-- The literal placeholder token of line 173, as a character list. -/
def replacemeL : List Char := ['&', 'r', 'e', 'p', 'l', 'a', 'c', 'e', 'm', 'e']

/-- The literal placeholder token of line 173. -/
def replacemeTok : String := String.mk replacemeL

/-- Lines 172-181: `serverBid.ad.replace('&replaceme', () => ...)`. -/
def adSubstituted (ad : String) (bidReq : ParsedBidReq) : String :=
  replaceFirstStr ad replacemeTok (replacemeExpansion bidReq)

/-- Decimal value of a digit character. -/
def digitVal (c : Char) : Nat := c.toNat - 48

/-- Decimal number denoted by a digit list. -/
def natOfDigits (l : List Char) : Nat :=
  l.foldl (fun acc c => acc * 10 + digitVal c) 0

/-- JavaScript whitespace skipped by the numeric parsers. -/
def isJsSpace (c : Char) : Bool :=
  c == ' ' || c == Char.ofNat 9 || c == Char.ofNat 10 || c == Char.ofNat 13

/-- JavaScript `parseInt(s, 10)`: skip whitespace, read an optional
sign and then the longest leading digit run; `none` models `NaN` (no
digits). -/
def parseIntJs (s : String) : Option Int :=
  let cs := s.data.dropWhile isJsSpace
  let signed : Int × List Char :=
    match cs with
    | '-' :: rest => (-1, rest)
    | '+' :: rest => (1, rest)
    | _ => (1, cs)
  let digits := signed.2.takeWhile Char.isDigit
  if digits.isEmpty then none
  else some (signed.1 * (natOfDigits digits : Int))

/-- Exponent part of a JavaScript float literal after `e`/`E`: an
invalid exponent is ignored (contributes 0), as `parseFloat` stops at
the first character that cannot continue a number. -/
def parseExpPart (l : List Char) : Int :=
  let signed : Int × List Char :=
    match l with
    | '-' :: rest => (-1, rest)
    | '+' :: rest => (1, rest)
    | _ => (1, l)
  let ds := signed.2.takeWhile Char.isDigit
  if ds.isEmpty then 0 else signed.1 * (natOfDigits ds : Int)

/-- JavaScript `parseFloat(s)` on ordinary decimal input (the
`Infinity` literal is not modelled; the server sends decimal strings):
optional sign, integer digits, optional fraction, optional exponent;
`none` models `NaN`. The value is exact as a rational. -/
def parseFloatQ (s : String) : Option ℚ :=
  let cs := s.data.dropWhile isJsSpace
  let signed : ℚ × List Char :=
    match cs with
    | '-' :: rest => (-1, rest)
    | '+' :: rest => (1, rest)
    | _ => (1, cs)
  let intDigits := signed.2.takeWhile Char.isDigit
  let rest1 := signed.2.drop intDigits.length
  let fracAndRest : List Char × List Char :=
    match rest1 with
    | '.' :: r => (r.takeWhile Char.isDigit, (r.dropWhile Char.isDigit))
    | _ => ([], rest1)
  if intDigits.isEmpty && fracAndRest.1.isEmpty then none
  else
    let mant : ℚ :=
      (natOfDigits intDigits : ℚ) + (natOfDigits fracAndRest.1 : ℚ) / (10 : ℚ) ^ fracAndRest.1.length
    let e : Int :=
      match fracAndRest.2 with
      | 'e' :: r => parseExpPart r
      | 'E' :: r => parseExpPart r
      | _ => 0
    some (signed.1 * mant * (10 : ℚ) ^ e)

/-- The optional `meta` block of a server bid entry. -/
structure ServerBidMeta where
  advertiserDomains : Option (List String)
deriving Repr

/-- One server-returned bid entry (lines 157-191): numeric fields arrive
as strings to be coerced; the fields the source guards with `||` or `if`
are optional here. -/
structure ServerBid where
  requestId : String
  cpm : String
  width : String
  height : String
  creativeId : String
  dealId : Option String
  currency : Option String
  mediaType : Option String
  ttl : Option Nat
  ad : String
  meta : Option ServerBidMeta
deriving Repr

/-- One normalized bid result (lines 158-183). `cpm`, `width` and
`height` carry the `parseFloat`/`parseInt` results (`none` = `NaN`);
`metaAdvertiserDomains` is the sole possible binding of the `meta`
object, `none` when `meta` stays `{}`. -/
structure BidResult where
  requestId : String
  cpm : Option ℚ
  width : Option Int
  height : Option Int
  creativeId : String
  dealId : Option String
  currency : String
  mediaType : String
  netRevenue : Bool
  ttl : Nat
  ad : String
  metaAdvertiserDomains : Option (List String)
deriving Repr

/-- Lines 158-191: build one `bidResponse` from one `serverBid` against
the parsed original payload. `||`-defaults follow JS truthiness: an
empty-string `dealId`/`currency`/`mediaType` and a zero `ttl` also fall
back; `meta.advertiserDomains` is copied only when present with nonzero
length. -/
def interpretBid (bidReq : ParsedBidReq) (serverBid : ServerBid) : BidResult :=
  { requestId := serverBid.requestId
    cpm := parseFloatQ serverBid.cpm
    width := parseIntJs serverBid.width
    height := parseIntJs serverBid.height
    creativeId := serverBid.creativeId
    dealId :=
      match serverBid.dealId with
      | some d => if d == "" then none else some d
      | none => none
    currency :=
      match serverBid.currency with
      | some c => if c == "" then "USD" else c
      | none => "USD"
    mediaType :=
      match serverBid.mediaType with
      | some m => if m == "" then "banner" else m
      | none => "banner"
    netRevenue := true
    ttl :=
      match serverBid.ttl with
      | some t => if t == 0 then 10 else t
      | none => 10
    ad := adSubstituted serverBid.ad bidReq
    metaAdvertiserDomains :=
      match serverBid.meta with
      | some m =>
        match m.advertiserDomains with
        | some l => if l.length != 0 then some l else none
        | none => none
      | none => none }

/-- The server response body: a list of bid entries under
`bidResponses`. -/
structure ServerRespBody where
  bidResponses : List ServerBid
deriving Repr

/-- Lines 153-196: `interpretResponse` — parse the echoed request
payload (modelled by taking the already-parsed `ParsedBidReq`), then
`_each`-loop over `serverResponse.body.bidResponses` pushing one result
per entry. -/
def interpretResponse (body : ServerRespBody) (bidReq : ParsedBidReq) : List BidResult :=
  body.bidResponses.foldl (fun bidResponses serverBid => bidResponses ++ [interpretBid bidReq serverBid]) []

/-- The four consent keys of a payload as `buildRequests` (lines
113-130) actually serializes them and `JSON.parse` recovers them: every
key is present, with the empty string standing for "no value" and the
numeric `gdprApplies` flag rendered as "1". -/
def builtPayloadFields (gdprConsentObj : Option GdprConsent) (gppConsentObj : Option GppConsent) (ortb2Regs : Option Ortb2Regs) : ParsedBidReq :=
  { gdprApplies := some (gdprAppliesField gdprConsentObj)
    gdprConsent := some (gdprConsentField gdprConsentObj)
    gppString := some (gppStringField gppConsentObj ortb2Regs)
    gppSid := some (gppSidField gppConsentObj ortb2Regs) }

/-! Helper lemmas shared by the claim theorems. -/

/-- A list is a `isPrefixOf`-prefix of itself followed by anything. -/
theorem isPrefixOf_append_self (l t : List Char) : List.isPrefixOf l (l ++ t) = true := by
  induction l with
  | nil => simp [List.isPrefixOf]
  | cons c cs ih => simp [List.isPrefixOf, ih]

/-- `replaceFirstAux` on a string that starts with the (non-empty)
pattern replaces that leading occurrence and keeps the tail verbatim. -/
theorem replaceFirstAux_here (c : Char) (pt rep t : List Char) :
    replaceFirstAux (c :: pt) rep ((c :: pt) ++ t) = rep ++ t := by
  show replaceFirstAux (c :: pt) rep (c :: (pt ++ t)) = rep ++ t
  unfold replaceFirstAux
  rw [show (c :: (pt ++ t)) = (c :: pt) ++ t from rfl]
  rw [isPrefixOf_append_self, List.drop_left]
  simp

/-- Looking up `k` after `setKey` replaced its binding in place finds
the new value. -/
theorem lookup_map_replace (k : String) (v : JVal) (l : List (String × JVal))
    (h : (l.find? (fun p => p.1 == k)).isSome) :
    lookupKey k (l.map (fun p => if p.1 == k then (k, v) else p)) = some v := by
  induction l with
  | nil => simp at h
  | cons p ps ih =>
    rw [List.map_cons]
    cases hp : (p.1 == k) with
    | true =>
      show lookupKey k ((k, v) :: List.map (fun p => if p.1 == k then (k, v) else p) ps) = some v
      unfold lookupKey
      rw [List.find?_cons]
      simp only [beq_self_eq_true]
      rfl
    | false =>
      show lookupKey k (p :: List.map (fun p => if p.1 == k then (k, v) else p) ps) = some v
      have h' : (ps.find? (fun p => p.1 == k)).isSome := by
        rw [List.find?_cons] at h
        simp only [hp] at h
        exact h
      unfold lookupKey
      rw [List.find?_cons]
      simp only [hp]
      exact ih h'

/-- Looking up `k` after `setKey` appended a fresh binding finds the
new value. -/
theorem lookup_append_single (k : String) (v : JVal) (l : List (String × JVal))
    (h : l.find? (fun p => p.1 == k) = none) :
    lookupKey k (l ++ [(k, v)]) = some v := by
  induction l with
  | nil =>
    show lookupKey k ((k, v) :: []) = some v
    unfold lookupKey
    rw [List.find?_cons]
    simp only [beq_self_eq_true]
    rfl
  | cons p ps ih =>
    cases hp : (p.1 == k) with
    | true =>
      rw [List.find?_cons] at h
      simp only [hp] at h
      simp at h
    | false =>
      have h' : ps.find? (fun p => p.1 == k) = none := by
        rw [List.find?_cons] at h
        simp only [hp] at h
        exact h
      rw [List.cons_append]
      unfold lookupKey
      rw [List.find?_cons]
      simp only [hp]
      exact ih h'

/-- Looking up a key right after setting it yields the value written. -/
theorem lookupKey_setKey (k : String) (v : JVal) (l : List (String × JVal)) :
    lookupKey k (setKey k v l) = some v := by
  unfold setKey
  by_cases h : (l.find? (fun p => p.1 == k)).isSome
  · rw [if_pos h]; exact lookup_map_replace k v l h
  · rw [if_neg h]
    exact lookup_append_single k v l (Option.not_isSome_iff_eq_none.mp h)

/-- The nested conditionals of `(ortb2Gpp && ortb2Regs.gpp_sid) || ''`
collapse to a single conjunction. -/
theorem gppSidFallback_eq (r : Option Ortb2Regs) :
    gppSidFallback r =
      (if truthyStr (r.bind Ortb2Regs.gpp) && truthyStr (r.bind Ortb2Regs.gpp_sid)
       then (r.bind Ortb2Regs.gpp_sid).getD "" else "") := by
  cases h1 : truthyStr (r.bind Ortb2Regs.gpp) <;>
    cases h2 : truthyStr (r.bind Ortb2Regs.gpp_sid) <;>
      simp [gppSidFallback, h1, h2]

/-- Accumulating with `push` (the `_each` loop shape) is `List.map`. -/
theorem foldl_push_eq_map {α β : Type} (f : α → β) (acc : List β) (l : List α) :
    l.foldl (fun a x => a ++ [f x]) acc = acc ++ l.map f := by
  induction l generalizing acc with
  | nil => simp
  | cons x xs ih => simp [List.foldl_cons, ih]

/-- When the targeting provider returns a non-empty mapping, the
impression options carry it under `targeting` (lines 90-93). -/
theorem processBid_options_override (f : GetTargetingFn) (b : BidRequest)
    (t : List (String × JVal))
    (h : f (getBidIdParameter "adUnitId" b.params) (lookupKey "targeting" (eraseKey "adUnitId" b.params)) = some t)
    (ht : t ≠ []) :
    (processBid (some f) b).2.options
      = setKey "targeting" (JVal.obj t) (eraseKey "adUnitId" b.params) := by
  simp only [processBid]
  rw [h]
  show (if t.length > 0 then setKey "targeting" (JVal.obj t) (eraseKey "adUnitId" b.params)
        else eraseKey "adUnitId" b.params)
      = setKey "targeting" (JVal.obj t) (eraseKey "adUnitId" b.params)
  rw [if_pos (List.length_pos.mpr ht)]

/-- When the targeting provider returns the empty mapping, the options
stay untouched (lines 90-93). -/
theorem processBid_options_empty (f : GetTargetingFn) (b : BidRequest)
    (h : f (getBidIdParameter "adUnitId" b.params) (lookupKey "targeting" (eraseKey "adUnitId" b.params)) = some []) :
    (processBid (some f) b).2.options = eraseKey "adUnitId" b.params := by
  simp only [processBid]
  rw [h]
  rfl

/-! Claim theorems. -/

/-- C1 (counterexample): the claim says that with the three fields other
than `gdprConsent` "empty/absent" the token is rewritten to exactly
`&gdprConsent=CONSENT123` with no other key appearing. But the filter at
line 176 is `bidReq[key] != null`, which keeps empty-string values, and
`buildRequests` always serializes all four keys (empty string when there
is no value). On the payload the adapter itself builds when only the
TCF consent string "CONSENT123" is set, the token expands to
`&gdprApplies=&gdprConsent=CONSENT123&gppString=&gppSid=`, not to
`&gdprConsent=CONSENT123`. -/
theorem c1_counterexample :
    adSubstituted "x&replaceme" (builtPayloadFields (some ⟨false, some "CONSENT123"⟩) none none)
        = "x&gdprApplies=&gdprConsent=CONSENT123&gppString=&gppSid=" ∧
    adSubstituted "x&replaceme" (builtPayloadFields (some ⟨false, some "CONSENT123"⟩) none none)
        ≠ "x&gdprConsent=CONSENT123" := by
  constructor
  · decide
  · decide

/-- C1 (amended): the token is replaced by an ampersand-prefixed,
ampersand-joined, URL-encoded key=value list over the four keys
gdprApplies, gdprConsent, gppString, gppSid in that fixed order, skipping
only keys whose value is null/undefined (absent from the parsed payload);
keys present with an empty-string value are emitted as `key=`. In
particular, when the other three keys are absent (not merely empty) and
`gdprConsent` is "CONSENT123", the token is rewritten to exactly
`&gdprConsent=CONSENT123`. -/
theorem c1_amended (p : ParsedBidReq) (h1 : p.gdprApplies = none)
    (h2 : p.gdprConsent = some "CONSENT123") (h3 : p.gppString = none)
    (h4 : p.gppSid = none) (ad : String) :
    adSubstituted ad p = replaceFirstStr ad replacemeTok "&gdprConsent=CONSENT123" := by
  have hp : p = ⟨none, some "CONSENT123", none, none⟩ := by
    cases p
    simp_all
  rw [hp]
  unfold adSubstituted
  rw [show replacemeExpansion ⟨none, some "CONSENT123", none, none⟩
      = "&gdprConsent=CONSENT123" from by decide]

/-- C1 (witness): the amended theorem applied to a concrete creative and
payload. -/
theorem c1_amended_witness :
    adSubstituted "x&replaceme" ⟨none, some "CONSENT123", none, none⟩
      = "x&gdprConsent=CONSENT123" :=
  (c1_amended ⟨none, some "CONSENT123", none, none⟩ rfl rfl rfl rfl "x&replaceme").trans
    (by decide)

/-- C2 (counterexample): the claim says that, with no applicable-section
list, `gppSid` equals the regulatory-extension fallback section-id field
verbatim regardless of whether the fallback consent string is present.
But line 129 is `(ortb2Gpp && ortb2Regs.gpp_sid) || ''`: with
`regs.gpp_sid = "7"` and `regs.gpp` absent, the code yields "", not
"7". -/
theorem c2_counterexample :
    gppSidField none (some ⟨none, some "7"⟩) = "" ∧
    gppSidField none (some ⟨none, some "7"⟩) ≠ "7" := by
  constructor
  · rfl
  · decide

/-- C2 (amended): `gppSid` equals the comma-join of the cross-context
applicable sections when that list is non-empty; otherwise it equals the
regulatory-extension fallback section-id field only when the
regulatory-extension consent string is ALSO present and non-empty (and
the field itself is truthy); in every other case it is the empty
string. -/
theorem c2_amended :
    (∀ (g : Option GppConsent) (r : Option Ortb2Regs) (l : List Int),
        g.bind GppConsent.applicableSections = some l → l ≠ [] →
        gppSidField g r = joinComma l) ∧
    (∀ (g : Option GppConsent) (r : Option Ortb2Regs),
        (g.bind GppConsent.applicableSections).getD [] = [] →
        gppSidField g r =
          (if truthyStr (r.bind Ortb2Regs.gpp) && truthyStr (r.bind Ortb2Regs.gpp_sid)
           then (r.bind Ortb2Regs.gpp_sid).getD "" else "")) := by
  constructor
  · intro g r l h hl
    unfold gppSidField
    rw [h]
    simp [List.isEmpty_iff, hl]
  · intro g r h
    unfold gppSidField
    cases hb : g.bind GppConsent.applicableSections with
    | none => exact gppSidFallback_eq r
    | some l =>
      rw [hb] at h
      simp only [Option.getD_some] at h
      subst h
      simp [List.isEmpty_iff, gppSidFallback_eq r]

/-- C2 (witness): both branches of the amended theorem at concrete
inputs: a non-empty section list joins with commas; with no section list
and both fallback fields present, the fallback section id is used. -/
theorem c2_amended_witness :
    gppSidField (some ⟨none, some [2, 7]⟩) none = "2,7" ∧
    gppSidField none (some ⟨some "GPPSTR", some "6"⟩) = "6" := by
  constructor
  · exact (c2_amended.1 (some ⟨none, some [2, 7]⟩) none [2, 7] rfl (by decide)).trans (by decide)
  · exact (c2_amended.2 none (some ⟨some "GPPSTR", some "6"⟩) rfl).trans (by decide)

/-- C3 (counterexample): the claim says any list mixing non-list
elements with valid pairs normalizes to exactly the valid pairs. But the
wrap test at line 81 checks only the FIRST element: for the input
`[5, [300, 250]]` the whole value is wrapped to `[[5, [300, 250]]]` and
the filter then keeps that single (array) element, so the output is not
`[[300, 250]]`. -/
theorem c3_counterexample :
    normalizeSizes (JVal.arr [JVal.num 5, JVal.arr [JVal.num 300, JVal.num 250]])
        = JVal.arr [JVal.arr [JVal.num 5, JVal.arr [JVal.num 300, JVal.num 250]]] ∧
    normalizeSizes (JVal.arr [JVal.num 5, JVal.arr [JVal.num 300, JVal.num 250]])
        ≠ JVal.arr [JVal.arr [JVal.num 300, JVal.num 250]] := by
  constructor
  · rfl
  · intro h
    rw [show normalizeSizes (JVal.arr [JVal.num 5, JVal.arr [JVal.num 300, JVal.num 250]])
        = JVal.arr [JVal.arr [JVal.num 5, JVal.arr [JVal.num 300, JVal.num 250]]] from rfl] at h
    simp at h

/-- C3 (amended): when the input list's FIRST element is itself a list,
the normalizer output is the input filtered to its list-valued elements,
in original relative order (so mixed malformed entries after the first
position are silently dropped); and a single unwrapped pair is wrapped
into a one-element list. -/
theorem c3_amended :
    (∀ (y rest : List JVal),
        normalizeSizes (JVal.arr (JVal.arr y :: rest))
          = JVal.arr ((JVal.arr y :: rest).filter JVal.isArr)) ∧
    (∀ w h : Int,
        normalizeSizes (JVal.arr [JVal.num w, JVal.num h])
          = JVal.arr [JVal.arr [JVal.num w, JVal.num h]]) :=
  ⟨fun _ _ => rfl, fun _ _ => rfl⟩

/-- C4 (counterexample): the claim says no field of an input bid request
is visibly mutated by `buildRequests`. But line 81 assigns the
normalized list back to `bid.sizes` on the host-supplied object: for the
documented single-pair input `[300, 250]`, after the call the bid's
`sizes` is `[[300, 250]]`, different from what the caller passed in. -/
theorem c4_counterexample :
    ((buildRequestsBidsAfter none
        [⟨"51ef8751f9aead", JVal.arr [JVal.num 300, JVal.num 250], [("adUnitId", JVal.num 11)]⟩]).headD
      ⟨"", JVal.str "", []⟩).sizes = JVal.arr [JVal.arr [JVal.num 300, JVal.num 250]] ∧
    ((buildRequestsBidsAfter none
        [⟨"51ef8751f9aead", JVal.arr [JVal.num 300, JVal.num 250], [("adUnitId", JVal.num 11)]⟩]).headD
      ⟨"", JVal.str "", []⟩).sizes ≠ JVal.arr [JVal.num 300, JVal.num 250] := by
  constructor
  · rfl
  · intro h
    rw [show ((buildRequestsBidsAfter none
        [⟨"51ef8751f9aead", JVal.arr [JVal.num 300, JVal.num 250], [("adUnitId", JVal.num 11)]⟩]).headD
      ⟨"", JVal.str "", []⟩).sizes = JVal.arr [JVal.arr [JVal.num 300, JVal.num 250]] from rfl] at h
    simp at h

/-- C4 (amended): `buildRequests` does rewrite each input bid's `sizes`
property in place (visible to the caller: afterwards it holds
`normalizeSizes` of the original), but nothing else: `params` (only
deep-cloned) and `bidId` are unchanged for every bid, for any targeting
provider. -/
theorem c4_amended (bidglass : Option GetTargetingFn) (bids : List BidRequest) :
    buildRequestsBidsAfter bidglass bids
        = bids.map (fun b => { b with sizes := normalizeSizes b.sizes }) ∧
    (buildRequestsBidsAfter bidglass bids).map BidRequest.params = bids.map BidRequest.params ∧
    (buildRequestsBidsAfter bidglass bids).map BidRequest.bidId = bids.map BidRequest.bidId := by
  refine ⟨rfl, ?_, ?_⟩
  · unfold buildRequestsBidsAfter
    rw [List.map_map]
    exact List.map_congr_left (fun b _ => rfl)
  · unfold buildRequestsBidsAfter
    rw [List.map_map]
    exact List.map_congr_left (fun b _ => rfl)

/-- C5 (confirmed): `gppString` is the cross-context consent string when
present and non-empty; otherwise the regulatory-extension fallback
consent string when present (an empty fallback still yields the empty
string, i.e. itself); otherwise the empty string. -/
theorem c5_gppString :
    (∀ (g : Option GppConsent) (r : Option Ortb2Regs) (s : String),
        g.bind GppConsent.gppString = some s → s ≠ "" → gppStringField g r = s) ∧
    (∀ (g : Option GppConsent) (r : Option Ortb2Regs) (f : String),
        truthyStr (g.bind GppConsent.gppString) = false → r.bind Ortb2Regs.gpp = some f →
        gppStringField g r = f) ∧
    (∀ (g : Option GppConsent) (r : Option Ortb2Regs),
        truthyStr (g.bind GppConsent.gppString) = false → r.bind Ortb2Regs.gpp = none →
        gppStringField g r = "") := by
  refine ⟨?_, ?_, ?_⟩
  · intro g r s h hs
    simp only [gppStringField]
    rw [h]
    simp [truthyStr, hs]
  · intro g r f h1 h2
    simp only [gppStringField]
    rw [h1, h2]
    by_cases hf : f = ""
    · subst hf; simp [truthyStr]
    · simp [truthyStr, hf]
  · intro g r h1 h2
    simp only [gppStringField]
    rw [h1, h2]
    simp [truthyStr]

/-- C5 (witness): the three branches at concrete inputs; the middle one
is the claim's own scenario — empty cross-context string, non-empty
fallback — yielding the fallback. -/
theorem c5_gppString_witness :
    gppStringField (some ⟨some "GPP1", none⟩) none = "GPP1" ∧
    gppStringField (some ⟨some "", none⟩) (some ⟨some "FALLBACK", none⟩) = "FALLBACK" ∧
    gppStringField none none = "" :=
  ⟨c5_gppString.1 (some ⟨some "GPP1", none⟩) none "GPP1" rfl (by decide),
   c5_gppString.2.1 (some ⟨some "", none⟩) (some ⟨some "FALLBACK", none⟩) "FALLBACK" rfl rfl,
   c5_gppString.2.2 none none rfl rfl⟩

/-- C6 (confirmed): with a registered targeting provider, an empty
returned mapping leaves the impression's `options.targeting` at the
slot's original value; a non-empty returned mapping replaces it; with no
provider the original is always preserved (lines 90-93). -/
theorem c6_targeting :
    (∀ (f : GetTargetingFn) (b : BidRequest),
        f (getBidIdParameter "adUnitId" b.params)
            (lookupKey "targeting" (eraseKey "adUnitId" b.params)) = some [] →
        lookupKey "targeting" ((processBid (some f) b).2.options)
          = lookupKey "targeting" (eraseKey "adUnitId" b.params)) ∧
    (∀ (f : GetTargetingFn) (b : BidRequest) (t : List (String × JVal)),
        f (getBidIdParameter "adUnitId" b.params)
            (lookupKey "targeting" (eraseKey "adUnitId" b.params)) = some t →
        t ≠ [] →
        lookupKey "targeting" ((processBid (some f) b).2.options) = some (JVal.obj t)) ∧
    (∀ b : BidRequest,
        lookupKey "targeting" ((processBid none b).2.options)
          = lookupKey "targeting" (eraseKey "adUnitId" b.params)) := by
  refine ⟨?_, ?_, ?_⟩
  · intro f b h
    rw [processBid_options_empty f b h]
  · intro f b t h ht
    rw [processBid_options_override f b t h ht]
    exact lookupKey_setKey _ _ _
  · intro b
    rfl

/-- C6 (witness): a provider returning the empty mapping preserves the
original targeting value; a provider returning a non-empty mapping
replaces it; no provider preserves it. -/
theorem c6_targeting_witness :
    lookupKey "targeting"
        ((processBid (some (fun _ _ => some ([] : List (String × JVal))))
          ⟨"b1", JVal.arr [], [("adUnitId", JVal.num 11), ("targeting", JVal.str "orig")]⟩).2.options)
      = some (JVal.str "orig") ∧
    lookupKey "targeting"
        ((processBid (some (fun _ _ => some [("goal", JVal.str "new")]))
          ⟨"b1", JVal.arr [], [("adUnitId", JVal.num 11), ("targeting", JVal.str "orig")]⟩).2.options)
      = some (JVal.obj [("goal", JVal.str "new")]) ∧
    lookupKey "targeting"
        ((processBid none
          ⟨"b1", JVal.arr [], [("adUnitId", JVal.num 11), ("targeting", JVal.str "orig")]⟩).2.options)
      = some (JVal.str "orig") := by
  refine ⟨?_, ?_, ?_⟩
  · exact (c6_targeting.1 (fun _ _ => some [])
      ⟨"b1", JVal.arr [], [("adUnitId", JVal.num 11), ("targeting", JVal.str "orig")]⟩ rfl).trans rfl
  · exact c6_targeting.2.1 (fun _ _ => some [("goal", JVal.str "new")])
      ⟨"b1", JVal.arr [], [("adUnitId", JVal.num 11), ("targeting", JVal.str "orig")]⟩
      [("goal", JVal.str "new")] rfl (by simp)
  · exact (c6_targeting.2.2
      ⟨"b1", JVal.arr [], [("adUnitId", JVal.num 11), ("targeting", JVal.str "orig")]⟩).trans rfl

/-- C7 (confirmed): the referer is the top frame's full URL when the
current frame is top-level, the visible referrer string when the
immediate parent is top-level, and null (`none`) when nested more than
one frame deep (lines 53-55). -/
theorem c7_referer :
    (∀ w : FrameCtx, w.isTop = true → getReferer w = some w.href) ∧
    (∀ w : FrameCtx, w.isTop = false → w.parentIsTop = true → getReferer w = some w.referrer) ∧
    (∀ w : FrameCtx, w.isTop = false → w.parentIsTop = false → getReferer w = none) := by
  refine ⟨?_, ?_, ?_⟩
  · intro w h
    simp [getReferer, h]
  · intro w h1 h2
    simp [getReferer, h1, h2]
  · intro w h1 h2
    simp [getReferer, h1, h2]

/-- C7 (witness): the three frame nestings at concrete contexts. -/
theorem c7_referer_witness :
    getReferer ⟨true, true, "https://top.example/page", "ref"⟩ = some "https://top.example/page" ∧
    getReferer ⟨false, true, "https://self.example/", "https://parent.example/"⟩
      = some "https://parent.example/" ∧
    getReferer ⟨false, false, "https://self.example/", "https://parent.example/"⟩ = none :=
  ⟨c7_referer.1 ⟨true, true, "https://top.example/page", "ref"⟩ rfl,
   c7_referer.2.1 ⟨false, true, "https://self.example/", "https://parent.example/"⟩ rfl rfl,
   c7_referer.2.2 ⟨false, false, "https://self.example/", "https://parent.example/"⟩ rfl rfl⟩

/-- C8 (confirmed): absent optional server-bid fields are defaulted, not
rejected: `dealId` → null, `currency` → "USD", `mediaType` → "banner",
`ttl` → 10, `netRevenue` → true unconditionally, `cpm` coerced via
`parseFloat` and width/height via `parseInt`, and the advertiser-domain
list is copied into meta only when present and non-empty (the
interpretation is a total function — no exception on any absence). -/
theorem c8_defaults :
    (∀ (p : ParsedBidReq) (sb : ServerBid),
        sb.dealId = none → sb.currency = none → sb.mediaType = none →
        sb.ttl = none → sb.meta = none →
        interpretBid p sb =
          { requestId := sb.requestId, cpm := parseFloatQ sb.cpm, width := parseIntJs sb.width,
            height := parseIntJs sb.height, creativeId := sb.creativeId, dealId := none,
            currency := "USD", mediaType := "banner", netRevenue := true, ttl := 10,
            ad := adSubstituted sb.ad p, metaAdvertiserDomains := none }) ∧
    (∀ (p : ParsedBidReq) (sb : ServerBid) (m : ServerBidMeta) (l : List String),
        sb.meta = some m → m.advertiserDomains = some l → l ≠ [] →
        (interpretBid p sb).metaAdvertiserDomains = some l) := by
  constructor
  · intro p sb h1 h2 h3 h4 h5
    cases sb
    subst h1 h2 h3 h4 h5
    rfl
  · intro p sb m l h1 h2 h3
    cases sb
    cases m
    subst h1 h2
    simp [interpretBid, h3]

/-- C8 (witness): a server bid with every optional field absent
interprets to the defaulted result, and a non-empty advertiser-domain
list is copied through. -/
theorem c8_defaults_witness :
    interpretBid ⟨none, none, none, none⟩
        ⟨"51ef8751f9aead", "1.5", "300", "250", "cr1", none, none, none, none, "AD", none⟩
      = { requestId := "51ef8751f9aead", cpm := parseFloatQ "1.5", width := parseIntJs "300",
          height := parseIntJs "250", creativeId := "cr1", dealId := none, currency := "USD",
          mediaType := "banner", netRevenue := true, ttl := 10,
          ad := adSubstituted "AD" ⟨none, none, none, none⟩, metaAdvertiserDomains := none } ∧
    (interpretBid ⟨none, none, none, none⟩
        ⟨"51ef8751f9aead", "1.5", "300", "250", "cr1", none, none, none, none, "AD",
          some ⟨some ["adv.example"]⟩⟩).metaAdvertiserDomains = some ["adv.example"] :=
  ⟨c8_defaults.1 ⟨none, none, none, none⟩
      ⟨"51ef8751f9aead", "1.5", "300", "250", "cr1", none, none, none, none, "AD", none⟩
      rfl rfl rfl rfl rfl,
   c8_defaults.2 ⟨none, none, none, none⟩
      ⟨"51ef8751f9aead", "1.5", "300", "250", "cr1", none, none, none, none, "AD",
        some ⟨some ["adv.example"]⟩⟩
      ⟨some ["adv.example"]⟩ ["adv.example"] rfl rfl (by simp)⟩

/-- C9 (confirmed): `interpretResponse` is a pure function of the
response body and the parsed original payload — interpreting the same
pair twice yields the same list — and the output is the entrywise map of
`interpretBid` over the server entries, so server-return order is
preserved with no hidden state. -/
theorem c9_deterministic (body : ServerRespBody) (p : ParsedBidReq) :
    interpretResponse body p = interpretResponse body p ∧
    interpretResponse body p = body.bidResponses.map (interpretBid p) := by
  refine ⟨rfl, ?_⟩
  unfold interpretResponse
  rw [foldl_push_eq_map]
  simp

/-- C10 (confirmed): only the first occurrence of `&replaceme` is
substituted: for a creative that begins with two adjacent copies of the
token followed by anything, the output is the expansion followed by the
second token and the tail, all verbatim. -/
theorem c10_first_occurrence (p : ParsedBidReq) (rest : List Char) :
    adSubstituted (String.mk (replacemeL ++ replacemeL ++ rest)) p
      = String.mk ((replacemeExpansion p).data ++ (replacemeL ++ rest)) := by
  unfold adSubstituted replaceFirstStr
  rw [show replacemeTok.data = replacemeL from rfl]
  have h2 : replaceFirst (replacemeL ++ replacemeL ++ rest) replacemeL (replacemeExpansion p).data
      = (replacemeExpansion p).data ++ (replacemeL ++ rest) := by
    show replaceFirstAux replacemeL (replacemeExpansion p).data (replacemeL ++ (replacemeL ++ rest))
        = (replacemeExpansion p).data ++ (replacemeL ++ rest)
    exact replaceFirstAux_here _ _ _ _
  rw [List.append_assoc] at h2 ⊢
  rw [h2]
